import Mathlib

/-!
Verification development for the Space Haven save-game editor core:
the unknown-id scanner (save_scanner.py), the backup retention manager
(save_manager.py) and the structural comparator (version_analyzer.py),
shallow-embedded in Lean.
-/

/-! # Definitions

The shallow embedding of the scanner, the backup manager and the
structural comparator, together with the concrete inputs used by the
witnesses and counterexamples. -/

/-- Checks the tail of a digit run: ASCII digits with single underscores
allowed only between digits, mirroring Python's `int` literal grammar. -/
def pyIntDigitsTail : List Char → Bool
  | [] => true
  | '_' :: c :: rest => c.isDigit && pyIntDigitsTail rest
  | '_' :: [] => false
  | c :: rest => c.isDigit && pyIntDigitsTail rest

/-- A nonempty digit run (underscores between digits allowed). -/
def pyIntCore : List Char → Bool
  | [] => false
  | c :: rest => c.isDigit && pyIntDigitsTail rest

/-- Numeric value of a digit run, ignoring underscores. -/
def digitsVal (l : List Char) : Nat :=
  l.foldl (fun acc c => if c = '_' then acc else acc * 10 + (c.toNat - '0'.toNat)) 0

/-- Strip leading and trailing whitespace characters. -/
def trimChars (l : List Char) : List Char :=
  ((l.dropWhile Char.isWhitespace).reverse.dropWhile Char.isWhitespace).reverse

/-- Shallow embedding of Python `int(s)`: strips surrounding whitespace,
accepts an optional single sign and a nonempty ASCII digit run; `none`
models the `ValueError` raised otherwise. -/
def pyInt (s : String) : Option Int :=
  match trimChars s.data with
  | '+' :: rest => if pyIntCore rest then some (digitsVal rest) else none
  | '-' :: rest => if pyIntCore rest then some (-(digitsVal rest : Int)) else none
  | rest => if pyIntCore rest then some (digitsVal rest) else none

/-- An XML element: tag, attribute list (keys unique, document order) and
child elements in document order. -/
inductive XmlNode : Type where
  | elem (tag : String) (attrib : List (String × String)) (children : List XmlNode)

def XmlNode.tag : XmlNode → String
  | .elem t _ _ => t

def XmlNode.attrib : XmlNode → List (String × String)
  | .elem _ a _ => a

def XmlNode.children : XmlNode → List XmlNode
  | .elem _ _ c => c

/-- `elem.get(key)`: the attribute's value, if present. -/
def XmlNode.get (n : XmlNode) (key : String) : Option String :=
  (n.attrib.find? (fun p => p.1 == key)).map (·.2)

/-- All strict descendants of a node in document (preorder) order. -/
def XmlNode.descendants : XmlNode → List XmlNode
  | .elem _ _ cs => go cs
where
  go : List XmlNode → List XmlNode
  | [] => []
  | c :: rest => c :: (c.descendants ++ go rest)

/-- `root.findall(".//tag")`: all strict descendants with the given tag. -/
def findallDesc (n : XmlNode) (t : String) : List XmlNode :=
  n.descendants.filter (fun c => c.tag == t)

/-- `elem.find(tag)`: first direct child with the given tag. -/
def findChild (n : XmlNode) (t : String) : Option XmlNode :=
  n.children.find? (fun c => c.tag == t)

/-- `elem.findall(tag)`: all direct children with the given tag. -/
def findallChild (n : XmlNode) (t : String) : List XmlNode :=
  n.children.filter (fun c => c.tag == t)

/-- `root.iter()`: the node itself followed by all descendants. -/
def iterAll (n : XmlNode) : List XmlNode :=
  n :: n.descendants

/-- The reference catalog (reference_data.ReferenceData), kept abstract:
`is_known_id v cat` is the two-argument membership test for a category,
`is_known_any v` the one-argument test against the union of all categories. -/
structure ReferenceData where
  is_known_id : Int → String → Bool
  is_known_any : Int → Bool

/-- An unknown item found in a save file (save_scanner.UnknownItem). -/
structure UnknownItem where
  id_value : Int
  id_type : String
  xml_path : String
  xml_tag : String
  xml_attributes : List (String × String)
  occurrences : Nat
deriving DecidableEq

/-- Results from scanning a save file (save_scanner.ScanResult); the
`id_summary` field is never populated by the source and is omitted. -/
structure ScanResult where
  file_path : String
  scan_timestamp : String
  total_ids_found : Nat
  known_ids_count : Nat
  unknown_ids_count : Nat
  unknown_items : List UnknownItem
deriving DecidableEq

/-- The deduplication walk inside `ScanResult.add_unknown_item`: if some
existing entry shares `(id_value, id_type)` with `item`, increment its
`occurrences` and return the updated list, else `none`. -/
def bumpUnknown : List UnknownItem → UnknownItem → Option (List UnknownItem)
  | [], _ => none
  | e :: rest, item =>
    if e.id_value = item.id_value ∧ e.id_type = item.id_type then
      some ({ e with occurrences := e.occurrences + 1 } :: rest)
    else
      (bumpUnknown rest item).map (e :: ·)

/-- `ScanResult.add_unknown_item`: dedup by `(id_value, id_type)`,
incrementing `occurrences` on a repeat sighting, else append and count. -/
def ScanResult.add_unknown_item (r : ScanResult) (item : UnknownItem) : ScanResult :=
  match bumpUnknown r.unknown_items item with
  | some l => { r with unknown_items := l }
  | none =>
      { r with unknown_items := r.unknown_items ++ [item],
               unknown_ids_count := r.unknown_ids_count + 1 }

/-- The shared classification step of every targeted pass: count the id,
then either count it as known for `category` or record an unknown item. -/
def classifyId (ref : ReferenceData) (category idType xmlPath xmlTag : String)
    (attrs : List (String × String)) (v : Int) (r : ScanResult) : ScanResult :=
  let r1 := { r with total_ids_found := r.total_ids_found + 1 }
  if ref.is_known_id v category then
    { r1 with known_ids_count := r1.known_ids_count + 1 }
  else
    r1.add_unknown_item
      { id_value := v, id_type := idType, xml_path := xmlPath, xml_tag := xmlTag,
        xml_attributes := attrs, occurrences := 1 }

/-- The classification step of the generic catch-all pass, which checks
the id against the union of all categories. -/
def classifyGeneric (ref : ReferenceData) (elem : XmlNode) (v : Int) (r : ScanResult) :
    ScanResult :=
  let r1 := { r with total_ids_found := r.total_ids_found + 1 }
  if ref.is_known_any v then
    { r1 with known_ids_count := r1.known_ids_count + 1 }
  else
    r1.add_unknown_item
      { id_value := v, id_type := "generic", xml_path := "//" ++ elem.tag,
        xml_tag := elem.tag, xml_attributes := elem.attrib, occurrences := 1 }

/-- One element of a character block: `int(elem.get("id", "0"))` followed by
classification; `none` models the uncaught `ValueError` on a non-numeric id. -/
def checkIdElem (ref : ReferenceData) (category idType xmlPath xmlTag : String)
    (e : XmlNode) (r : ScanResult) : Option ScanResult :=
  (pyInt ((e.get "id").getD "0")).map
    (fun v => classifyId ref category idType xmlPath xmlTag e.attrib v r)

/-- One block (attr/skills/traits/conditions) of `_scan_characters`:
find the block under `pers` and check each of its elements. -/
def scanBlock (ref : ReferenceData) (pers : XmlNode)
    (blockTag elemTag category idType xmlPath : String) (r : ScanResult) :
    Option ScanResult :=
  match findChild pers blockTag with
  | none => some r
  | some blk =>
      (findallChild blk elemTag).foldlM
        (fun r e => checkIdElem ref category idType xmlPath elemTag e r) r

/-- A single-quote character, for building the XPath strings of the source. -/
def sqChar : String := ⟨[Char.ofNat 39]⟩

/-- `SaveFileScanner._scan_characters`. -/
def scan_characters (ref : ReferenceData) (root : XmlNode) (r : ScanResult) :
    Option ScanResult :=
  (findallDesc root "c").foldlM
    (fun r charElem =>
      match findChild charElem "pers" with
      | none => some r
      | some pers =>
        let char_id := (charElem.get "entId").getD "unknown"
        let base := "//c[@entId=" ++ sqChar ++ char_id ++ sqChar ++ "]/pers/"
        do
          let r ← scanBlock ref pers "attr" "a" "attributes" "attribute" (base ++ "attr/a") r
          let r ← scanBlock ref pers "skills" "s" "skills" "skill" (base ++ "skills/s") r
          let r ← scanBlock ref pers "traits" "t" "traits" "trait" (base ++ "traits/t") r
          scanBlock ref pers "conditions" "c" "conditions" "condition"
            (base ++ "conditions/c") r)
    r

/-- `SaveFileScanner._scan_storage`: both storage patterns; non-numeric
values are caught (`except ValueError: pass`), so this pass is total. -/
def scan_storage (ref : ReferenceData) (root : XmlNode) (r0 : ScanResult) : ScanResult :=
  let r1 :=
    (findallDesc root "item").foldl
      (fun r e =>
        match e.get "id" with
        | none => r
        | some s =>
          match pyInt s with
          | none => r
          | some v => classifyId ref "storage_items" "storage_item" "//item" "item" e.attrib v r)
      r0
  (findallDesc root "s").foldl
    (fun r e =>
      match e.get "objId" with
      | none => r
      | some s =>
        match pyInt s with
        | none => r
        | some v => classifyId ref "storage_items" "storage_item" "//s[@objId]" "s" e.attrib v r)
    r1

/-- `SaveFileScanner._scan_research`: no `try` around `int`, so a
non-numeric id aborts the scan (`none`). -/
def scan_research (ref : ReferenceData) (root : XmlNode) (r0 : ScanResult) :
    Option ScanResult :=
  (findallDesc root "research").foldlM
    (fun r e =>
      match e.get "id" with
      | none => some r
      | some s =>
        (pyInt s).map
          (fun v => classifyId ref "research" "research" "//research" "research" e.attrib v r))
    r0

/-- `SaveFileScanner._scan_crafts`: no `try` around `int`, so a
non-numeric type aborts the scan (`none`). -/
def scan_crafts (ref : ReferenceData) (root : XmlNode) (r0 : ScanResult) :
    Option ScanResult :=
  (findallDesc root "craft").foldlM
    (fun r e =>
      match e.get "type" with
      | none => some r
      | some s =>
        (pyInt s).map
          (fun v => classifyId ref "crafts" "craft" "//craft" "craft" e.attrib v r))
    r0

/-- Attribute names inspected by the generic catch-all pass. -/
def id_attributes : List String := ["id", "type", "objId", "itemId", "typeId"]

/-- Tags excluded from the catch-all pass (already covered elsewhere). -/
def coveredTags : List String := ["c", "a", "s", "t", "item", "research", "craft"]

/-- `SaveFileScanner._scan_generic_ids`: visits every node (the root
included), inspects each generic id attribute, skips non-numeric values
and already-covered tags, and classifies the rest against the union of
all categories. Total: its `ValueError` is caught. -/
def scan_generic_ids (ref : ReferenceData) (root : XmlNode) (r0 : ScanResult) : ScanResult :=
  (iterAll root).foldl
    (fun r elem =>
      id_attributes.foldl
        (fun r attr_name =>
          match elem.get attr_name with
          | none => r
          | some s =>
            match pyInt s with
            | none => r
            | some v =>
              if coveredTags.contains elem.tag then r
              else classifyGeneric ref elem v r)
        r)
    r0

/-- The fresh `ScanResult` built at the top of `scan_file`. -/
def initResult (fp ts : String) : ScanResult :=
  { file_path := fp, scan_timestamp := ts, total_ids_found := 0,
    known_ids_count := 0, unknown_ids_count := 0, unknown_items := [] }

/-- `SaveFileScanner.scan_file` on an already-parsed tree: the five passes
in order; `none` models the re-raised exception of a failing pass. -/
def scan_file (ref : ReferenceData) (fp ts : String) (root : XmlNode) :
    Option ScanResult := do
  let r ← scan_characters ref root (initResult fp ts)
  let r := scan_storage ref root r
  let r ← scan_research ref root r
  let r ← scan_crafts ref root r
  return scan_generic_ids ref root r

/-- Total number of sightings recorded across the unknown items. -/
def sumOcc (l : List UnknownItem) : Nat := (l.map (·.occurrences)).sum

/-- The deduplication key of an unknown item. -/
def ukey (u : UnknownItem) : Int × String := (u.id_value, u.id_type)

/-- A predicate preserved by both classification steps. -/
def ClassifyStable (P : ScanResult → Prop) : Prop :=
  (∀ ref category idType xmlPath xmlTag attrs v r,
      P r → P (classifyId ref category idType xmlPath xmlTag attrs v r)) ∧
  (∀ ref elem v r, P r → P (classifyGeneric ref elem v r))

/-- The counting invariant of a scan result. -/
def ScanEq (r : ScanResult) : Prop :=
  r.total_ids_found = r.known_ids_count + sumOcc r.unknown_items

/-- The deduplication invariant of a scan result. -/
def KeysNodup (r : ScanResult) : Prop := (r.unknown_items.map ukey).Nodup

/-- A concrete reference catalog: attribute 210 and skills 1, 2 are known. -/
def refW : ReferenceData :=
  { is_known_id := fun v cat =>
      (cat == "attributes" && v == 210) || (cat == "skills" && (v == 1 || v == 2)),
    is_known_any := fun v => v == 210 || v == 1 || v == 2 }

/-- A concrete save tree: one character with attributes 210 (known) and
999 (unknown) and skill 1 (known). -/
def treeW : XmlNode :=
  .elem "game" []
    [ .elem "c" [("entId", "7")]
        [ .elem "pers" []
            [ .elem "attr" [] [.elem "a" [("id", "210")] [], .elem "a" [("id", "999")] []],
              .elem "skills" [] [.elem "s" [("id", "1")] []] ] ] ]

/-- The scan result the source produces on `treeW` with catalog `refW`. -/
def rW : ScanResult :=
  { file_path := "save", scan_timestamp := "now", total_ids_found := 3,
    known_ids_count := 2, unknown_ids_count := 1,
    unknown_items :=
      [{ id_value := 999, id_type := "attribute",
         xml_path := "//c[@entId=" ++ sqChar ++ "7" ++ sqChar ++ "]/pers/attr/a",
         xml_tag := "a", xml_attributes := [("id", "999")], occurrences := 1 }] }

/-- A repeat sighting of the unknown attribute 999. -/
def itemW : UnknownItem :=
  { id_value := 999, id_type := "attribute", xml_path := "//x", xml_tag := "x",
    xml_attributes := [], occurrences := 1 }

/-- Shell-style glob matching for the patterns used by the source, where
`*` matches any (possibly empty) character sequence and every other
character matches itself. -/
def globMatch : List Char → List Char → Bool
  | [], s => s.isEmpty
  | p :: ps, s =>
    if p = '*' then s.tails.any (fun t => globMatch ps t)
    else
      match s with
      | [] => false
      | c :: cs => p == c && globMatch ps cs

/-- The backup folder: the files it contains, as (name, size) pairs. -/
structure BackupState where
  files : List (String × Nat)
deriving DecidableEq

/-- The source save directory, abstracted to what `create_backup` reads
from it: whether it exists, and the parsed root of its `info` file if one
was found and parses (used by `_get_save_version`). -/
structure SourceDir where
  present : Bool
  infoRoot : Option XmlNode

/-- `BackupManager._get_save_version`: `root.get("version")` of the parsed
info file; `none` on a missing or unparseable file or absent attribute. -/
def get_save_version (src : SourceDir) : Option String :=
  match src.infoRoot with
  | some root => root.get "version"
  | none => none

/-- `name[:8]`, the date component of a backup file name. -/
def dateOf (s : String) : String := ⟨s.data.take 8⟩

/-- `BackupManager._find_backups_for_date`: sorted glob of
`{date}_*-savegames*.zip` over the backup folder. -/
def find_backups_for_date (st : BackupState) (date_str : String) : List String :=
  List.insertionSort (fun a b : String => a.data ≤ b.data)
    ((st.files.map (·.1)).filter
      (fun n => globMatch (date_str ++ "_*-savegames*.zip").data n.data))

/-- Name-ascending order on directory entries (Python sorts the globbed
paths, which share the folder prefix, so they order by file name). -/
def fileLe (f g : String × Nat) : Prop := f.1.data ≤ g.1.data

instance : DecidableRel fileLe := fun f g => inferInstanceAs (Decidable (f.1.data ≤ g.1.data))

instance : IsTotal (String × Nat) fileLe := ⟨fun a b => le_total a.1.data b.1.data⟩

instance : IsTrans (String × Nat) fileLe := ⟨fun _ _ _ h1 h2 => le_trans h1 h2⟩

/-- `BackupManager.get_all_backups`: sorted glob of `*-savegames*.zip`,
each entry reported as (date, name, size). -/
def get_all_backups (st : BackupState) : List (String × String × Nat) :=
  (List.insertionSort fileLe
      (st.files.filter (fun f => globMatch "*-savegames*.zip".data f.1.data))).map
    (fun f => (dateOf f.1, f.1, f.2))

/-- Descending string order, for `sorted(..., reverse=True)`. -/
def dateDesc (a b : String) : Prop := b.data ≤ a.data

instance : DecidableRel dateDesc := fun a b => inferInstanceAs (Decidable (b.data ≤ a.data))

instance : IsTotal String dateDesc := ⟨fun a b => le_total b.data a.data⟩

instance : IsTrans String dateDesc := ⟨fun _ _ _ h1 h2 => le_trans h2 h1⟩

/-- `BackupManager.get_backup_dates`: the unique backup dates, descending. -/
def get_backup_dates (st : BackupState) : List String :=
  List.insertionSort dateDesc (((get_all_backups st).map (·.1)).dedup)

/-- `BackupManager.get_total_backup_size`. -/
def get_total_backup_size (st : BackupState) : Nat :=
  ((get_all_backups st).map (fun e => e.2.2)).sum

/-- `BackupManager.create_backup`. The filesystem effects of the archive
write are driven by `writeOk`: on success the finished archive (of size
`sizeOnSuccess`) appears under its final name and the name is returned; on
an I/O failure mid-write the partially written file (of size `sizeOnFail`)
is left on disk under the same final name — the source opens
`zipfile.ZipFile(backup_path, "w")` directly at the final path and its
`except` handler only logs and returns `None`, deleting nothing. -/
def create_backup (st : BackupState) (src : SourceDir) (force_new : Bool) (today : String)
    (writeOk : Bool) (sizeOnFail sizeOnSuccess : Nat) : Option String × BackupState :=
  if src.present = false then (none, st)
  else
    let version := get_save_version src
    let existing_today := find_backups_for_date st today
    if existing_today ≠ [] ∧ force_new = false then (some (existing_today.headD ""), st)
    else
      let next_n := existing_today.length + 1
      let version_str :=
        match version with
        | some v => if v = "" then "" else "-v" ++ v
        | none => ""
      let backup_name := today ++ "_" ++ toString next_n ++ "-savegames" ++ version_str ++ ".zip"
      if writeOk then (some backup_name, ⟨st.files ++ [(backup_name, sizeOnSuccess)]⟩)
      else (none, ⟨st.files ++ [(backup_name, sizeOnFail)]⟩)

/-- `backup_path.unlink()`: drop the file with the given name. -/
def removeFile (st : BackupState) (n : String) : BackupState :=
  ⟨st.files.filter (fun f => f.1 != n)⟩

/-- The body of the inner pruning loop: report the archive in a dry run;
otherwise `unlink` it (on success report it and drop the file, on a
logged failure leave both untouched). -/
def pruneStep (dry_run : Bool) (unlinkOk : String → Bool)
    (acc2 : List String × BackupState) (name : String) : List String × BackupState :=
  if dry_run then (acc2.1 ++ [name], acc2.2)
  else if unlinkOk name then (acc2.1 ++ [name], removeFile acc2.2 name)
  else acc2

/-- One date of the pruning loop: find that date's backups in the current
folder and process each. -/
def pruneDate (dry_run : Bool) (unlinkOk : String → Bool)
    (acc : List String × BackupState) (date_str : String) : List String × BackupState :=
  (find_backups_for_date acc.2 date_str).foldl (pruneStep dry_run unlinkOk) acc

/-- `BackupManager.prune_old_backups`. `unlinkOk` drives the per-file
`unlink` outcome: a failing unlink is logged and the file is neither
removed nor reported. -/
def prune_old_backups (st : BackupState) (keep_days : Nat) (dry_run : Bool)
    (unlinkOk : String → Bool) : List String × BackupState :=
  let dates := get_backup_dates st
  if dates.length ≤ keep_days then ([], st)
  else
    (dates.drop keep_days).foldl (pruneDate dry_run unlinkOk) ([], st)

/-- The well-formed shape of archive names produced by `create_backup`:
an 8-character star-free date, an underscore, an arbitrary middle part,
the `-savegames` marker, an arbitrary version part and the `.zip` suffix. -/
def GoodName (n : String) : Prop :=
  ∃ d mid vs : List Char, d.length = 8 ∧ (∀ c ∈ d, c ≠ '*') ∧
    n.data = d ++ '_' :: (mid ++ ("-savegames".data ++ (vs ++ ".zip".data)))

/-- Modelled from the claim as stated: the archive name
`{YYYYMMDD}_{N}-savegames[-v{version}].zip` where the `-v{version}`
suffix is omitted exactly when no version tag was discoverable. -/
def claimArchiveName (date : String) (n : Nat) (version : Option String) : String :=
  date ++ "_" ++ toString n ++ "-savegames" ++
    (match version with
     | some v => "-v" ++ v
     | none => "") ++ ".zip"

/-- The amended naming rule: as the claim states it, except that the
`-v{version}` suffix is also omitted when the discovered version string
is empty (Python truthiness of `version`). -/
def specArchiveName (date : String) (n : Nat) (version : Option String) : String :=
  date ++ "_" ++ toString n ++ "-savegames" ++
    (match version with
     | some v => if v = "" then "" else "-v" ++ v
     | none => "") ++ ".zip"

/-- A source directory whose info file has an empty `version` attribute:
a version tag is discoverable (`some ""`), yet the code omits the suffix. -/
def srcEmptyVersion : SourceDir :=
  ⟨true, some (.elem "info" [("version", "")] [])⟩

/-- A plain existing source directory with no info file. -/
def srcPlain : SourceDir := ⟨true, none⟩

/-- A backup folder holding archives of two different dates, the later
date's file listed first on disk. -/
def stC9 : BackupState :=
  ⟨[("20240102_1-savegames.zip", 5), ("20240101_1-savegames.zip", 7)]⟩

/-- An 8-character, star-free calendar date component. -/
def GoodDate (d : String) : Prop :=
  d.data.length = 8 ∧ ∀ c ∈ d.data, c ≠ '*'

/-- A backup folder with five unique backup dates. -/
def stC4 : BackupState :=
  ⟨[("20240101_1-savegames.zip", 1),
    ("20240102_1-savegames.zip", 2),
    ("20240103_1-savegames.zip", 3),
    ("20240104_1-savegames.zip", 4),
    ("20240105_1-savegames.zip", 5)]⟩

/-- A catalog that knows nothing. -/
def refNone : ReferenceData := ⟨fun _ _ => false, fun _ => false⟩

/-- A save tree whose two storage entries carry the value `s`. -/
def storageTreeNonNum (s : String) : XmlNode :=
  .elem "game" [] [.elem "item" [("id", s)] [], .elem "s" [("objId", s)] []]

/-- A save tree with one generic id-bearing element carrying `s`. -/
def genericTreeNonNum (s : String) : XmlNode :=
  .elem "game" [] [.elem "foo" [("id", s)] []]

/-- A save tree with one character attribute element whose id is `s`. -/
def charTreeNonNum (s : String) : XmlNode :=
  .elem "game" []
    [.elem "c" [("entId", "1")]
      [.elem "pers" [] [.elem "attr" [] [.elem "a" [("id", s)] []]]]]

/-- A save tree with one research element whose id is `s`. -/
def researchTreeNonNum (s : String) : XmlNode :=
  .elem "game" [] [.elem "research" [("id", s)] []]

/-- A save tree with one craft element whose type is `s`. -/
def craftTreeNonNum (s : String) : XmlNode :=
  .elem "game" [] [.elem "craft" [("type", s)] []]

/-- A character whose attribute, skill, trait and condition elements all
lack an `id` attribute. -/
def missingIdTree : XmlNode :=
  .elem "game" []
    [.elem "c" [("entId", "1")]
      [.elem "pers" []
        [.elem "attr" [] [.elem "a" [] []],
         .elem "skills" [] [.elem "s" [] []],
         .elem "traits" [] [.elem "t" [] []],
         .elem "conditions" [] [.elem "c" [] []]]]]

/-- The per-node structure summary built by `_analyze_structure`:
`_truncated` nodes carry nothing; regular nodes carry `_tag`,
`_attributes` (the attribute keys), `_child_counts` and the summaries of
the first child of each distinct tag. -/
inductive StructNode : Type where
  | truncated
  | node (tag : String) (attributes : List String) (child_counts : List (String × Nat))
      (children : List StructNode)

/-- `children_by_tag[tag] = children_by_tag.get(tag, 0) + 1`, preserving
first-appearance (insertion) order as a Python dict does. -/
def bumpCount : List (String × Nat) → String → List (String × Nat)
  | [], t => [(t, 1)]
  | (s, k) :: rest, t =>
    if s = t then (s, k + 1) :: rest else (s, k) :: bumpCount rest t

/-- The `_child_counts` dict: child tags with multiplicities. -/
def countTags (cs : List XmlNode) : List (String × Nat) :=
  cs.foldl (fun acc c => bumpCount acc c.tag) []

/-- The `seen_tags` loop: keep the first child of each distinct tag. -/
def firstPerTagGo : List String → List XmlNode → List XmlNode
  | _, [] => []
  | seen, c :: rest =>
    if seen.contains c.tag then firstPerTagGo seen rest
    else c :: firstPerTagGo (c.tag :: seen) rest

def firstPerTag (cs : List XmlNode) : List XmlNode := firstPerTagGo [] cs

/-- `_analyze_node`, driven by the remaining depth budget
`gas = max_depth - depth + 1`: the source truncates once
`depth > max_depth` and recurses at `depth + 1`. -/
def analyzeNode : Nat → XmlNode → StructNode
  | 0, _ => .truncated
  | gas + 1, n =>
      .node n.tag (n.attrib.map (·.1)) (countTags n.children)
        ((firstPerTag n.children).map (analyzeNode gas))

/-- `_analyze_structure(root, max_depth=3)`: the root sits at depth 0. -/
def analyze_structure (root : XmlNode) (max_depth : Nat := 3) : StructNode :=
  analyzeNode (max_depth + 1) root

/-- `summary.get("_child_counts", {})` — a truncated node has none. -/
def StructNode.childCounts : StructNode → List (String × Nat)
  | .truncated => []
  | .node _ _ cc _ => cc

/-- `SaveFileVersionAnalyzer._compare_structures`: compares the child-tag
sets of the two summaries it is handed and reports differences at `path`.
Despite its docstring ("Recursively compare XML structures") it never
recurses into the children. -/
def compare_structures (baseline comparison : StructNode) (path : String) : List String :=
  let bTags := baseline.childCounts.map (·.1)
  let cTags := comparison.childCounts.map (·.1)
  let missing := bTags.filter (fun t => !(cTags.contains t))
  let newTags := cTags.filter (fun t => !(bTags.contains t))
  missing.map
      (fun t => "Missing element at " ++ path ++ ": <" ++ t ++ "> (present in baseline)") ++
    newTags.map
      (fun t => "New element at " ++ path ++ ": <" ++ t ++ "> (not in baseline)")

/-- The structural-difference part of `compare_saves`: one call to
`_compare_structures` on the two depth-bounded summaries, at the fixed
path `"root"`. -/
def structuralDiffs (baseline other : XmlNode) : List String :=
  compare_structures (analyze_structure baseline) (analyze_structure other) "root"

/-- Baseline: the root's child `a` has a child `b`. -/
def c8Base : XmlNode := .elem "game" [] [.elem "a" [] [.elem "b" [] []]]

/-- Comparison: the root's child `a` has no children. -/
def c8Other : XmlNode := .elem "game" [] [.elem "a" [] []]

/-! # Theorems -/

theorem sumOcc_nil : sumOcc [] = 0 := rfl

theorem sumOcc_cons (u : UnknownItem) (l : List UnknownItem) :
    sumOcc (u :: l) = u.occurrences + sumOcc l := by
  simp [sumOcc]

theorem sumOcc_append (l₁ l₂ : List UnknownItem) :
    sumOcc (l₁ ++ l₂) = sumOcc l₁ + sumOcc l₂ := by
  simp [sumOcc]

theorem bumpUnknown_some (l : List UnknownItem) (item : UnknownItem) (l' : List UnknownItem)
    (h : bumpUnknown l item = some l') :
    sumOcc l' = sumOcc l + 1 ∧ l'.map ukey = l.map ukey ∧ l'.length = l.length := by
  induction l generalizing l' with
  | nil => simp [bumpUnknown] at h
  | cons e rest ih =>
      rw [bumpUnknown] at h
      split at h
      · cases h
        refine ⟨?_, ?_, ?_⟩
        · simp [sumOcc_cons]; omega
        · simp [ukey]
        · simp
      · rcases Option.map_eq_some'.mp h with ⟨l'', h1, rfl⟩
        rcases ih l'' h1 with ⟨hs, hk, hl⟩
        refine ⟨?_, ?_, ?_⟩
        · simp [sumOcc_cons, hs]; omega
        · simp [hk]
        · simp [hl]

theorem bumpUnknown_eq_none (l : List UnknownItem) (item : UnknownItem) :
    bumpUnknown l item = none ↔ ∀ e ∈ l, ukey e ≠ ukey item := by
  induction l with
  | nil => simp [bumpUnknown]
  | cons e rest ih =>
      rw [bumpUnknown]
      split
      · rename_i hcond
        simp only [ukey]
        constructor
        · intro h; cases h
        · intro h
          exact absurd (Prod.ext hcond.1 hcond.2) (h e (List.mem_cons_self e rest))
      · rename_i hcond
        simp only [Option.map_eq_none', ih]
        constructor
        · intro h e' he'
          rcases List.mem_cons.mp he' with rfl | hm
          · intro hk
            exact hcond ⟨congrArg Prod.fst hk, congrArg Prod.snd hk⟩
          · exact h e' hm
        · intro h e' he'
          exact h e' (List.mem_cons_of_mem _ he')

theorem add_unknown_item_counts (r : ScanResult) (i : UnknownItem) :
    (r.add_unknown_item i).total_ids_found = r.total_ids_found ∧
    (r.add_unknown_item i).known_ids_count = r.known_ids_count := by
  unfold ScanResult.add_unknown_item
  split <;> simp

theorem add_unknown_item_sumOcc (r : ScanResult) (i : UnknownItem) (h1 : i.occurrences = 1) :
    sumOcc (r.add_unknown_item i).unknown_items = sumOcc r.unknown_items + 1 := by
  unfold ScanResult.add_unknown_item
  split
  · rename_i l hl
    simpa using (bumpUnknown_some _ _ _ hl).1
  · simp [sumOcc_append, sumOcc_cons, sumOcc_nil, h1]

theorem add_unknown_item_keys_nodup (r : ScanResult) (i : UnknownItem)
    (h : (r.unknown_items.map ukey).Nodup) :
    ((r.add_unknown_item i).unknown_items.map ukey).Nodup := by
  unfold ScanResult.add_unknown_item
  split
  · rename_i l hl
    simpa [(bumpUnknown_some _ _ _ hl).2.1] using h
  · rename_i hl
    have hk := (bumpUnknown_eq_none _ _).mp hl
    simp only [List.map_append, List.map_cons, List.map_nil]
    rw [List.nodup_append]
    refine ⟨h, List.nodup_singleton _, ?_⟩
    intro k hk1 hk2
    rcases List.mem_map.mp hk1 with ⟨e, he, rfl⟩
    simp at hk2
    exact hk e he hk2

theorem bumpUnknown_mem_key (l : List UnknownItem) (i : UnknownItem) (l' : List UnknownItem)
    (h : bumpUnknown l i = some l') : ∃ u ∈ l', ukey u = ukey i := by
  induction l generalizing l' with
  | nil => simp [bumpUnknown] at h
  | cons e rest ih =>
      rw [bumpUnknown] at h
      split at h
      · rename_i hcond
        cases h
        exact ⟨_, List.mem_cons_self _ _, by simp [ukey, hcond.1, hcond.2]⟩
      · rcases Option.map_eq_some'.mp h with ⟨l'', h1, rfl⟩
        rcases ih l'' h1 with ⟨u, hu, hku⟩
        exact ⟨u, List.mem_cons_of_mem _ hu, hku⟩

theorem add_unknown_item_mem_key (r : ScanResult) (i : UnknownItem) :
    ∃ u ∈ (r.add_unknown_item i).unknown_items, ukey u = ukey i := by
  unfold ScanResult.add_unknown_item
  split
  · rename_i l hl
    exact bumpUnknown_mem_key _ _ _ hl
  · exact ⟨i, by simp, rfl⟩

theorem add_unknown_item_mem_key_mono (r : ScanResult) (i : UnknownItem) (k : Int × String)
    (h : ∃ u ∈ r.unknown_items, ukey u = k) :
    ∃ u ∈ (r.add_unknown_item i).unknown_items, ukey u = k := by
  rcases h with ⟨u, hu, hku⟩
  unfold ScanResult.add_unknown_item
  split
  · rename_i l hl
    have hkeys := (bumpUnknown_some _ _ _ hl).2.1
    have : ukey u ∈ l.map ukey := by
      rw [hkeys]; exact List.mem_map_of_mem _ hu
    rcases List.mem_map.mp this with ⟨u', hu', hku'⟩
    exact ⟨u', hu', hku' ▸ hku⟩
  · exact ⟨u, List.mem_append_left _ hu, hku⟩

theorem add_unknown_item_repeat (r : ScanResult) (i : UnknownItem)
    (h : ∃ u ∈ r.unknown_items, ukey u = ukey i) :
    (r.add_unknown_item i).unknown_items.length = r.unknown_items.length ∧
    sumOcc (r.add_unknown_item i).unknown_items = sumOcc r.unknown_items + 1 := by
  have hbump : bumpUnknown r.unknown_items i ≠ none := by
    intro hn
    rcases h with ⟨u, hu, hku⟩
    exact (bumpUnknown_eq_none _ _).mp hn u hu hku
  unfold ScanResult.add_unknown_item
  split
  · rename_i l hl
    have := bumpUnknown_some _ _ _ hl
    simp [this.1, this.2.2]
  · rename_i hl
    exact absurd hl hbump

theorem foldl_preserve {σ α : Type} (P : σ → Prop) (f : σ → α → σ)
    (hf : ∀ s a, P s → P (f s a)) :
    ∀ (l : List α) (s : σ), P s → P (l.foldl f s) := by
  intro l
  induction l with
  | nil => intro s hs; simpa using hs
  | cons a l ih => intro s hs; rw [List.foldl_cons]; exact ih _ (hf s a hs)

theorem foldlM_preserve {σ α : Type} (P : σ → Prop) (f : σ → α → Option σ)
    (hf : ∀ s a s', f s a = some s' → P s → P s') :
    ∀ (l : List α) (s s' : σ), l.foldlM f s = some s' → P s → P s' := by
  intro l
  induction l with
  | nil =>
      intro s s' h hs
      simp only [List.foldlM_nil] at h
      cases h; exact hs
  | cons a l ih =>
      intro s s' h hs
      rw [List.foldlM_cons] at h
      rcases Option.bind_eq_some.mp h with ⟨s₁, h1, h2⟩
      exact ih s₁ s' h2 (hf s a s₁ h1 hs)

theorem checkIdElem_preserve (P : ScanResult → Prop) (hP : ClassifyStable P)
    (ref : ReferenceData) (category idType xmlPath xmlTag : String) (e : XmlNode)
    (r r' : ScanResult) (h : checkIdElem ref category idType xmlPath xmlTag e r = some r')
    (hr : P r) : P r' := by
  unfold checkIdElem at h
  rcases Option.map_eq_some'.mp h with ⟨v, _, rfl⟩
  exact hP.1 _ _ _ _ _ _ _ _ hr

theorem scanBlock_preserve (P : ScanResult → Prop) (hP : ClassifyStable P)
    (ref : ReferenceData) (pers : XmlNode) (blockTag elemTag category idType xmlPath : String)
    (r r' : ScanResult) (h : scanBlock ref pers blockTag elemTag category idType xmlPath r = some r')
    (hr : P r) : P r' := by
  unfold scanBlock at h
  split at h
  · cases h; exact hr
  · exact foldlM_preserve P _
      (fun s a s' hs => checkIdElem_preserve P hP ref category idType xmlPath elemTag a s s' hs)
      _ r r' h hr

theorem scan_characters_preserve (P : ScanResult → Prop) (hP : ClassifyStable P)
    (ref : ReferenceData) (root : XmlNode) (r r' : ScanResult)
    (h : scan_characters ref root r = some r') (hr : P r) : P r' := by
  unfold scan_characters at h
  refine foldlM_preserve P _ ?_ _ r r' h hr
  intro s charElem s' hstep hs
  split at hstep
  · cases hstep; exact hs
  · rcases Option.bind_eq_some.mp hstep with ⟨s₁, h1, hstep⟩
    rcases Option.bind_eq_some.mp hstep with ⟨s₂, h2, hstep⟩
    rcases Option.bind_eq_some.mp hstep with ⟨s₃, h3, hstep⟩
    exact scanBlock_preserve P hP _ _ _ _ _ _ _ _ _ hstep
      (scanBlock_preserve P hP _ _ _ _ _ _ _ _ _ h3
        (scanBlock_preserve P hP _ _ _ _ _ _ _ _ _ h2
          (scanBlock_preserve P hP _ _ _ _ _ _ _ _ _ h1 hs)))

theorem scan_storage_preserve (P : ScanResult → Prop) (hP : ClassifyStable P)
    (ref : ReferenceData) (root : XmlNode) (r : ScanResult) (hr : P r) :
    P (scan_storage ref root r) := by
  unfold scan_storage
  refine foldl_preserve P _ ?_ _ _ (foldl_preserve P _ ?_ _ _ hr) <;>
  · intro s e hs
    cases e.get _ with
    | none => exact hs
    | some str =>
        simp only []
        cases pyInt str with
        | none => exact hs
        | some v => exact hP.1 _ _ _ _ _ _ _ _ hs

theorem scan_research_preserve (P : ScanResult → Prop) (hP : ClassifyStable P)
    (ref : ReferenceData) (root : XmlNode) (r r' : ScanResult)
    (h : scan_research ref root r = some r') (hr : P r) : P r' := by
  unfold scan_research at h
  refine foldlM_preserve P _ ?_ _ r r' h hr
  intro s e s' hstep hs
  split at hstep
  · cases hstep; exact hs
  · rcases Option.map_eq_some'.mp hstep with ⟨v, _, rfl⟩
    exact hP.1 _ _ _ _ _ _ _ _ hs

theorem scan_crafts_preserve (P : ScanResult → Prop) (hP : ClassifyStable P)
    (ref : ReferenceData) (root : XmlNode) (r r' : ScanResult)
    (h : scan_crafts ref root r = some r') (hr : P r) : P r' := by
  unfold scan_crafts at h
  refine foldlM_preserve P _ ?_ _ r r' h hr
  intro s e s' hstep hs
  split at hstep
  · cases hstep; exact hs
  · rcases Option.map_eq_some'.mp hstep with ⟨v, _, rfl⟩
    exact hP.1 _ _ _ _ _ _ _ _ hs

theorem scan_generic_ids_preserve (P : ScanResult → Prop) (hP : ClassifyStable P)
    (ref : ReferenceData) (root : XmlNode) (r : ScanResult) (hr : P r) :
    P (scan_generic_ids ref root r) := by
  unfold scan_generic_ids
  refine foldl_preserve P _ ?_ _ _ hr
  intro s elem hs
  refine foldl_preserve P _ ?_ _ _ hs
  intro s' attr_name hs'
  cases elem.get attr_name with
  | none => exact hs'
  | some str =>
      simp only []
      cases pyInt str with
      | none => exact hs'
      | some v =>
          show P (if coveredTags.contains elem.tag = true then s' else classifyGeneric ref elem v s')
          by_cases hc : coveredTags.contains elem.tag = true
          · rw [if_pos hc]; exact hs'
          · rw [if_neg hc]; exact hP.2 _ _ _ _ hs'

theorem scan_file_preserve (P : ScanResult → Prop) (hP : ClassifyStable P)
    (ref : ReferenceData) (fp ts : String) (root : XmlNode) (r' : ScanResult)
    (h : scan_file ref fp ts root = some r') (hinit : P (initResult fp ts)) : P r' := by
  unfold scan_file at h
  rcases Option.bind_eq_some.mp h with ⟨r1, h1, h⟩
  rcases Option.bind_eq_some.mp h with ⟨r2, h2, h⟩
  rcases Option.bind_eq_some.mp h with ⟨r3, h3, h⟩
  have h' : some (scan_generic_ids ref root r3) = some r' := h
  cases Option.some.inj h'
  exact scan_generic_ids_preserve P hP ref root r3
    (scan_crafts_preserve P hP ref root _ r3 h3
      (scan_research_preserve P hP ref root _ r2 h2
        (scan_storage_preserve P hP ref root r1
          (scan_characters_preserve P hP ref root _ r1 h1 hinit))))

theorem classifyStable_scanEq : ClassifyStable ScanEq := by
  constructor
  · intro ref category idType xmlPath xmlTag attrs v r hr
    unfold classifyId
    split
    · simp only [ScanEq] at *
      omega
    · have hc := add_unknown_item_counts
        { r with total_ids_found := r.total_ids_found + 1 }
        { id_value := v, id_type := idType, xml_path := xmlPath, xml_tag := xmlTag,
          xml_attributes := attrs, occurrences := 1 }
      have hsum := add_unknown_item_sumOcc
        { r with total_ids_found := r.total_ids_found + 1 }
        { id_value := v, id_type := idType, xml_path := xmlPath, xml_tag := xmlTag,
          xml_attributes := attrs, occurrences := 1 } rfl
      simp only [ScanEq] at *
      rw [hc.1, hc.2, hsum]
      omega
  · intro ref elem v r hr
    unfold classifyGeneric
    split
    · simp only [ScanEq] at *
      omega
    · have hc := add_unknown_item_counts
        { r with total_ids_found := r.total_ids_found + 1 }
        { id_value := v, id_type := "generic", xml_path := "//" ++ elem.tag,
          xml_tag := elem.tag, xml_attributes := elem.attrib, occurrences := 1 }
      have hsum := add_unknown_item_sumOcc
        { r with total_ids_found := r.total_ids_found + 1 }
        { id_value := v, id_type := "generic", xml_path := "//" ++ elem.tag,
          xml_tag := elem.tag, xml_attributes := elem.attrib, occurrences := 1 } rfl
      simp only [ScanEq] at *
      rw [hc.1, hc.2, hsum]
      omega

theorem classifyStable_keysNodup : ClassifyStable KeysNodup := by
  constructor
  · intro ref category idType xmlPath xmlTag attrs v r hr
    unfold classifyId
    split
    · exact hr
    · exact add_unknown_item_keys_nodup _ _ hr
  · intro ref elem v r hr
    unfold classifyGeneric
    split
    · exact hr
    · exact add_unknown_item_keys_nodup _ _ hr

/-- C1: for every catalog and input tree, a `ScanResult` returned by
`scan_file` satisfies `total_ids_found = known_ids_count + sum of
occurrences over unknown_items`: every identifier checked, in the
targeted passes and in the generic catch-all pass, increments
`total_ids_found` and contributes exactly one either to `known_ids_count`
or to some unknown item's `occurrences`. -/
theorem C1_scan_total_conservation (ref : ReferenceData) (fp ts : String) (root : XmlNode)
    (r : ScanResult) (h : scan_file ref fp ts root = some r) :
    r.total_ids_found = r.known_ids_count + sumOcc r.unknown_items :=
  scan_file_preserve ScanEq classifyStable_scanEq ref fp ts root r h
    (by simp [ScanEq, initResult, sumOcc_nil])

/-- Witness for C1 at the concrete catalog `refW` and tree `treeW`. -/
theorem C1_scan_total_conservation_witness :
    rW.total_ids_found = rW.known_ids_count + sumOcc rW.unknown_items :=
  C1_scan_total_conservation refW "save" "now" treeW rW (by decide)

/-- C2: in every `ScanResult` produced by a scan, no two distinct unknown
items share the `(id_value, id_type)` key (first conjunct), and a repeat
sighting of an identifier already recorded as unknown for that category
increments that item's `occurrences` counter instead of appending a new
entry (second conjunct: the list keeps its length and gains exactly one
occurrence). -/
theorem C2_unknown_items_dedup :
    (∀ (ref : ReferenceData) (fp ts : String) (root : XmlNode) (r : ScanResult),
        scan_file ref fp ts root = some r → (r.unknown_items.map ukey).Nodup) ∧
    (∀ (r : ScanResult) (item : UnknownItem),
        (∃ u ∈ r.unknown_items, ukey u = ukey item) →
        (r.add_unknown_item item).unknown_items.length = r.unknown_items.length ∧
        sumOcc (r.add_unknown_item item).unknown_items = sumOcc r.unknown_items + 1) :=
  ⟨fun ref fp ts root r h =>
      scan_file_preserve KeysNodup classifyStable_keysNodup ref fp ts root r h
        (by simp [KeysNodup, initResult]),
   fun r item h => add_unknown_item_repeat r item h⟩

/-- Witness for C2: the concrete scan plus a repeat sighting of item 999. -/
theorem C2_unknown_items_dedup_witness :
    (rW.unknown_items.map ukey).Nodup ∧
    ((rW.add_unknown_item itemW).unknown_items.length = rW.unknown_items.length ∧
      sumOcc (rW.add_unknown_item itemW).unknown_items = sumOcc rW.unknown_items + 1) :=
  ⟨C2_unknown_items_dedup.1 refW "save" "now" treeW rW (by decide),
   C2_unknown_items_dedup.2 rW itemW (by decide)⟩

theorem globMatch_eq_nil (s : List Char) : globMatch [] s = s.isEmpty := rfl

theorem globMatch_eq_star (ps s : List Char) :
    globMatch ('*' :: ps) s = s.tails.any (fun t => globMatch ps t) := rfl

theorem globMatch_eq_cons (p : Char) (ps s : List Char) :
    globMatch (p :: ps) s =
      if p = '*' then s.tails.any (fun t => globMatch ps t)
      else
        match s with
        | [] => false
        | c :: cs => p == c && globMatch ps cs := rfl

theorem globMatch_nil (s : List Char) : globMatch [] s = true ↔ s = [] := by
  rw [globMatch_eq_nil]
  simp [List.isEmpty_iff]

theorem globMatch_star (ps s : List Char) :
    globMatch ('*' :: ps) s = true ↔ ∃ t, t <:+ s ∧ globMatch ps t = true := by
  rw [globMatch_eq_star]
  simp [List.any_eq_true, List.mem_tails]

theorem globMatch_lit (lit : List Char) (hlit : ∀ c ∈ lit, c ≠ '*') (ps ss : List Char) :
    globMatch (lit ++ ps) ss = true ↔ ∃ rest, ss = lit ++ rest ∧ globMatch ps rest = true := by
  induction lit generalizing ss with
  | nil => simp
  | cons c lit ih =>
      have hc : c ≠ '*' := hlit c (by simp)
      have hlit' : ∀ c' ∈ lit, c' ≠ '*' := fun c' hc' => hlit c' (List.mem_cons_of_mem _ hc')
      rw [List.cons_append, globMatch_eq_cons, if_neg hc]
      cases ss with
      | nil =>
          constructor
          · intro h; cases h
          · rintro ⟨rest, h, _⟩; cases h
      | cons c' ss' =>
          simp only [Bool.and_eq_true, beq_iff_eq]
          constructor
          · rintro ⟨rfl, h⟩
            rcases (ih hlit' ss').mp h with ⟨rest, rfl, hrest⟩
            exact ⟨rest, rfl, hrest⟩
          · rintro ⟨rest, heq, hrest⟩
            rw [List.cons_append] at heq
            injection heq with h1 h2
            subst h1
            exact ⟨rfl, (ih hlit' ss').mpr ⟨rest, h2, hrest⟩⟩

/-- A star absorbs any prefix in front of a match. -/
theorem globMatch_star_absorb (ps pre s : List Char) (h : globMatch ('*' :: ps) s = true) :
    globMatch ('*' :: ps) (pre ++ s) = true := by
  rcases (globMatch_star ps s).mp h with ⟨t, hts, ht⟩
  exact (globMatch_star ps (pre ++ s)).mpr ⟨t, hts.trans (List.suffix_append pre s), ht⟩

/-- A star can absorb nothing. -/
theorem globMatch_star_intro (ps s : List Char) (h : globMatch ps s = true) :
    globMatch ('*' :: ps) s = true :=
  (globMatch_star ps s).mpr ⟨s, List.suffix_refl s, h⟩

/-- The tail of every archive name matches the `-savegames*.zip` part. -/
theorem globMatch_tail_part (vs : List Char) :
    globMatch ("-savegames*.zip").data ("-savegames".data ++ (vs ++ ".zip".data)) = true := by
  rw [show ("-savegames*.zip").data
        = "-savegames".data ++ '*' :: (".zip").data from rfl]
  rw [globMatch_lit "-savegames".data (by decide)]
  exact ⟨vs ++ ".zip".data, rfl,
    (globMatch_star _ _).mpr ⟨".zip".data, ⟨vs, rfl⟩, by decide⟩⟩

/-- The variable middle and version parts are absorbed by the two stars. -/
theorem globMatch_star_tail (mid vs : List Char) :
    globMatch ('*' :: ("-savegames*.zip").data)
      (mid ++ ("-savegames".data ++ (vs ++ ".zip".data))) = true :=
  globMatch_star_absorb _ mid _ (globMatch_star_intro _ _ (globMatch_tail_part vs))

/-- Characterization of a date-restricted pattern match. -/
theorem globMatch_datePat (d : List Char) (hd : ∀ c ∈ d, c ≠ '*') (n : List Char) :
    globMatch (d ++ '_' :: '*' :: ("-savegames*.zip").data) n = true ↔
      ∃ rest, n = d ++ '_' :: rest ∧
        globMatch ('*' :: ("-savegames*.zip").data) rest = true := by
  have hlit : ∀ c ∈ d ++ ['_'], c ≠ '*' := by
    intro c hcmem
    rcases List.mem_append.mp hcmem with hcd | hcu
    · exact hd c hcd
    · simp at hcu; subst hcu; decide
  have h := globMatch_lit (d ++ ['_']) hlit ('*' :: ("-savegames*.zip").data) n
  simpa [List.append_assoc] using h

/-- The date component of a well-formed name is its leading 8 characters. -/
theorem goodName_shape (n : String) (h : GoodName n) :
    (∃ mid vs, n.data
        = (dateOf n).data ++ '_' :: (mid ++ ("-savegames".data ++ (vs ++ ".zip".data)))) ∧
      (dateOf n).data.length = 8 ∧ ∀ c ∈ (dateOf n).data, c ≠ '*' := by
  rcases h with ⟨d, mid, vs, hlen, hstar, hn⟩
  have hdata : (dateOf n).data = n.data.take 8 := rfl
  have hdate : (dateOf n).data = d := by
    rw [hdata, hn, List.take_append_of_le_length (by omega), List.take_of_length_le (by omega)]
  exact ⟨⟨mid, vs, by rw [hdate, hn]⟩, by rw [hdate]; exact hlen, by rw [hdate]; exact hstar⟩

/-- A well-formed archive name matches the all-backups pattern. -/
theorem goodName_matches_allPat (n : String) (h : GoodName n) :
    globMatch ("*-savegames*.zip").data n.data = true := by
  rcases h with ⟨d, mid, vs, _, _, hn⟩
  rw [hn, show ("*-savegames*.zip").data = '*' :: ("-savegames*.zip").data from rfl,
    show d ++ '_' :: (mid ++ ("-savegames".data ++ (vs ++ ".zip".data)))
        = (d ++ '_' :: mid) ++ ("-savegames".data ++ (vs ++ ".zip".data)) by simp]
  exact globMatch_star_absorb _ _ _ (globMatch_star_intro _ _ (globMatch_tail_part vs))

/-- A well-formed name matches the date-restricted pattern of a given
8-character date exactly when that date is its own date component. -/
theorem goodName_datePat_iff (n : String) (h : GoodName n) (d' : List Char)
    (hlen' : d'.length = 8) (hstar' : ∀ c ∈ d', c ≠ '*') :
    globMatch (d' ++ '_' :: '*' :: ("-savegames*.zip").data) n.data = true ↔
      (dateOf n).data = d' := by
  obtain ⟨⟨mid, vs, hn⟩, hlen, hstar⟩ := goodName_shape n h
  constructor
  · intro hm
    rcases (globMatch_datePat d' hstar' n.data).mp hm with ⟨rest, hr, _⟩
    have : (dateOf n).data = n.data.take 8 := rfl
    rw [this, hr, List.take_append_of_le_length (by omega),
      List.take_of_length_le (by omega)]
  · intro hdeq
    rw [hn, ← hdeq]
    exact (globMatch_datePat (dateOf n).data hstar _).mpr
      ⟨mid ++ ("-savegames".data ++ (vs ++ ".zip".data)), rfl, globMatch_star_tail mid vs⟩

/-- The `.data` of a date-restricted pattern string. -/
theorem datePat_data (d : String) :
    (d ++ "_*-savegames*.zip").data = d.data ++ '_' :: '*' :: ("-savegames*.zip").data := by
  rw [String.data_append]

/-- The `.data` of a name built the way `create_backup` builds one. -/
theorem backupName_data (today nstr vs : String) :
    (today ++ "_" ++ nstr ++ "-savegames" ++ vs ++ ".zip").data
      = today.data ++ '_' :: (nstr.data ++ ("-savegames".data ++ (vs.data ++ ".zip".data))) := by
  simp [String.data_append, List.append_assoc]

/-- Names built the way `create_backup` builds them are well formed. -/
theorem createdName_good (today nstr vs : String) (hlen : today.data.length = 8)
    (hstar : ∀ c ∈ today.data, c ≠ '*') :
    GoodName (today ++ "_" ++ nstr ++ "-savegames" ++ vs ++ ".zip") :=
  ⟨today.data, nstr.data, vs.data, hlen, hstar, backupName_data today nstr vs⟩

/-- Such names match the date pattern of their own date. -/
theorem createdName_matches (today nstr vs : String) (hstar : ∀ c ∈ today.data, c ≠ '*') :
    globMatch (today ++ "_*-savegames*.zip").data
      (today ++ "_" ++ nstr ++ "-savegames" ++ vs ++ ".zip").data = true := by
  rw [datePat_data]
  exact (globMatch_datePat today.data hstar _).mpr
    ⟨nstr.data ++ ("-savegames".data ++ (vs.data ++ ".zip".data)),
      backupName_data today nstr vs, globMatch_star_tail _ _⟩

/-- Membership in `_find_backups_for_date`. -/
theorem mem_find_backups_for_date (st : BackupState) (ds n : String) :
    n ∈ find_backups_for_date st ds ↔
      n ∈ st.files.map (·.1) ∧ globMatch (ds ++ "_*-savegames*.zip").data n.data = true := by
  unfold find_backups_for_date
  rw [List.mem_insertionSort]
  simp [List.mem_filter]

/-- `_find_backups_for_date` on a folder with one extra file. -/
theorem find_backups_append_nonmatching (files : List (String × Nat)) (extra : List (String × Nat))
    (ds : String)
    (hmatchless : (files.map (·.1)).filter
      (fun n => globMatch (ds ++ "_*-savegames*.zip").data n.data) = []) :
    find_backups_for_date ⟨files ++ extra⟩ ds = find_backups_for_date ⟨extra⟩ ds := by
  unfold find_backups_for_date
  simp only [List.map_append, List.filter_append, hmatchless, List.nil_append]

/-- The empty result of `_find_backups_for_date` means the filter is empty. -/
theorem find_backups_empty_filter (st : BackupState) (ds : String)
    (h : find_backups_for_date st ds = []) :
    (st.files.map (·.1)).filter
      (fun n => globMatch (ds ++ "_*-savegames*.zip").data n.data) = [] := by
  unfold find_backups_for_date at h
  have hp := List.perm_insertionSort (fun a b : String => a.data ≤ b.data)
    ((st.files.map (·.1)).filter (fun n => globMatch (ds ++ "_*-savegames*.zip").data n.data))
  rw [h] at hp
  exact hp.symm.eq_nil

/-- C3: for an existing source directory and a backup folder with no
backup for today yet, calling `create_backup` twice on the same day with
`force_new = false` returns the same archive path from both calls and
creates exactly one archive file; the second call changes nothing and
returns the existing backup. -/
theorem C3_create_backup_idempotent (st0 : BackupState) (src : SourceDir) (today : String)
    (szF szS szF2 szS2 : Nat) (wOk2 : Bool)
    (hsrc : src.present = true)
    (hstar : ∀ c ∈ today.data, c ≠ '*')
    (hempty : find_backups_for_date st0 today = []) :
    (create_backup (create_backup st0 src false today true szF szS).2
        src false today wOk2 szF2 szS2).1
      = (create_backup st0 src false today true szF szS).1 ∧
    (create_backup (create_backup st0 src false today true szF szS).2
        src false today wOk2 szF2 szS2).2
      = (create_backup st0 src false today true szF szS).2 ∧
    ∃ name, (create_backup st0 src false today true szF szS).1 = some name ∧
      (create_backup st0 src false today true szF szS).2.files
        = st0.files ++ [(name, szS)] := by
  have hfalse : ¬ src.present = false := by rw [hsrc]; decide
  set vstr := (match get_save_version src with
    | some v => if v = "" then "" else "-v" ++ v
    | none => "") with hvstr
  set name := today ++ "_" ++ toString 1 ++ "-savegames" ++ vstr ++ ".zip" with hname
  have h1 : create_backup st0 src false today true szF szS
      = (some name, ⟨st0.files ++ [(name, szS)]⟩) := by
    unfold create_backup
    rw [if_neg hfalse, hempty, if_neg (by intro hcon; exact hcon.1 rfl)]
    rfl
  rw [h1]
  have hfind1 : find_backups_for_date ⟨st0.files ++ [(name, szS)]⟩ today = [name] := by
    rw [find_backups_append_nonmatching st0.files [(name, szS)] today
      (find_backups_empty_filter st0 today hempty)]
    unfold find_backups_for_date
    simp only [List.map_cons, List.map_nil, List.filter]
    rw [hname, createdName_matches today (toString 1) vstr hstar]
    simp [List.insertionSort, List.orderedInsert]
  have h2 : create_backup ⟨st0.files ++ [(name, szS)]⟩ src false today wOk2 szF2 szS2
      = (some name, ⟨st0.files ++ [(name, szS)]⟩) := by
    unfold create_backup
    rw [if_neg hfalse, hfind1, if_pos ⟨List.cons_ne_nil name [], rfl⟩]
    rfl
  rw [h2]
  exact ⟨rfl, rfl, name, rfl, rfl⟩

/-- Witness for C3 on an initially empty backup folder. -/
theorem C3_create_backup_idempotent_witness :
    (create_backup (create_backup ⟨[]⟩ ⟨true, none⟩ false "20240601" true 0 100).2
        ⟨true, none⟩ false "20240601" false 0 100).1
      = (create_backup ⟨[]⟩ ⟨true, none⟩ false "20240601" true 0 100).1 ∧
    (create_backup (create_backup ⟨[]⟩ ⟨true, none⟩ false "20240601" true 0 100).2
        ⟨true, none⟩ false "20240601" false 0 100).2
      = (create_backup ⟨[]⟩ ⟨true, none⟩ false "20240601" true 0 100).2 ∧
    ∃ name, (create_backup ⟨[]⟩ ⟨true, none⟩ false "20240601" true 0 100).1 = some name ∧
      (create_backup ⟨[]⟩ ⟨true, none⟩ false "20240601" true 0 100).2.files
        = ([] : List (String × Nat)) ++ [(name, 100)] :=
  C3_create_backup_idempotent ⟨[]⟩ ⟨true, none⟩ "20240601" 0 100 0 100 false
    rfl (by decide) (by decide)

/-- Counterexample to C5 as stated: with a discoverable but empty version
tag, the archive is named without the `-v{version}` suffix, so the suffix
is not omitted "exactly when no version tag was discoverable". -/
theorem C5_counterexample :
    get_save_version srcEmptyVersion = some "" ∧
    (create_backup ⟨[]⟩ srcEmptyVersion false "20240601" true 0 100).1
        = some "20240601_1-savegames.zip" ∧
    (create_backup ⟨[]⟩ srcEmptyVersion false "20240601" true 0 100).1
        ≠ some (claimArchiveName "20240601" 1 (get_save_version srcEmptyVersion)) := by
  refine ⟨rfl, rfl, ?_⟩
  decide

/-- C5 (amended): whenever `create_backup` actually builds an archive
(existing source, and no same-day backup or `force_new`), the file it
creates is named `{today}_{N}-savegames[-v{version}].zip` with `N` one
more than the count of existing backups for that date, the suffix
omitted exactly when the discovered version is absent or empty. -/
theorem C5_archive_naming (st : BackupState) (src : SourceDir) (force : Bool) (today : String)
    (wOk : Bool) (szF szS : Nat) (hsrc : src.present = true)
    (hfresh : find_backups_for_date st today = [] ∨ force = true) :
    (create_backup st src force today wOk szF szS).2.files
        = st.files ++
          [(specArchiveName today ((find_backups_for_date st today).length + 1)
              (get_save_version src), if wOk then szS else szF)] ∧
      (wOk = true →
        (create_backup st src force today wOk szF szS).1
          = some (specArchiveName today ((find_backups_for_date st today).length + 1)
              (get_save_version src))) := by
  have hfalse : ¬ src.present = false := by rw [hsrc]; decide
  have hcond : ¬ (find_backups_for_date st today ≠ [] ∧ force = false) := by
    rcases hfresh with hempty | hforce
    · intro hcon; exact hcon.1 hempty
    · intro hcon; rw [hforce] at hcon; cases hcon.2
  unfold create_backup
  rw [if_neg hfalse, if_neg hcond]
  cases wOk with
  | true => exact ⟨rfl, fun _ => rfl⟩
  | false => exact ⟨rfl, fun h => by cases h⟩

/-- Witness for the amended C5 on a folder that already holds one backup
for the day, with `force_new = true`: the new archive is number 2 and
carries the discovered version tag. -/
theorem C5_archive_naming_witness :
    (create_backup ⟨[("20240601_1-savegames.zip", 5)]⟩ ⟨true, some (.elem "info" [("version", "18")] [])⟩
        true "20240601" true 0 100).2.files
        = [("20240601_1-savegames.zip", 5)] ++
          [(specArchiveName "20240601"
              ((find_backups_for_date ⟨[("20240601_1-savegames.zip", 5)]⟩ "20240601").length + 1)
              (get_save_version ⟨true, some (.elem "info" [("version", "18")] [])⟩),
            if true then 100 else 0)] ∧
      (true = true →
        (create_backup ⟨[("20240601_1-savegames.zip", 5)]⟩
            ⟨true, some (.elem "info" [("version", "18")] [])⟩ true "20240601" true 0 100).1
          = some (specArchiveName "20240601"
              ((find_backups_for_date ⟨[("20240601_1-savegames.zip", 5)]⟩ "20240601").length + 1)
              (get_save_version ⟨true, some (.elem "info" [("version", "18")] [])⟩))) :=
  C5_archive_naming ⟨[("20240601_1-savegames.zip", 5)]⟩
    ⟨true, some (.elem "info" [("version", "18")] [])⟩ true "20240601" true 0 100
    rfl (Or.inr rfl)

/-- C6 fails on the code: when the archive write fails partway through
(`writeOk = false`), `create_backup` returns `None`, but the partially
written zip stays on disk under its final name, where the enumeration
(`get_all_backups`), the same-day lookup (`_find_backups_for_date`) and
hence pruning all see it as a backup. -/
theorem C6_partial_backup_is_registered :
    (create_backup ⟨[]⟩ srcPlain false "20240601" false 37 100).1 = none ∧
    (create_backup ⟨[]⟩ srcPlain false "20240601" false 37 100).2.files
        = [("20240601_1-savegames.zip", 37)] ∧
    get_all_backups (create_backup ⟨[]⟩ srcPlain false "20240601" false 37 100).2
        = [("20240601", "20240601_1-savegames.zip", 37)] ∧
    find_backups_for_date (create_backup ⟨[]⟩ srcPlain false "20240601" false 37 100).2
        "20240601" = ["20240601_1-savegames.zip"] := by
  refine ⟨rfl, rfl, ?_, ?_⟩ <;> decide

/-- Counterexample to C9 as stated: `get_all_backups` sorts by file name
ascending, so the dates come out ascending — `["20240101", "20240102"]` —
not descending as the claim requires for the overall entry order. -/
theorem C9_counterexample :
    (get_all_backups stC9).map (fun e => e.1) = ["20240101", "20240102"] ∧
    ¬ ((get_all_backups stC9).map (fun e => e.1)).Sorted dateDesc := by
  constructor
  · decide
  · intro hs
    have h12 := List.rel_of_sorted_cons hs "20240102" (by decide)
    revert h12
    decide

/-- C9 (amended): `get_all_backups` returns entries sorted by archive
name ascending overall — hence name-ascending within each calendar date
but date-ascending, not date-descending, across dates — with each entry's
date the leading eight characters of its name; `get_backup_dates` returns
the unique backup dates in descending order. -/
theorem C9_enumeration_order (st : BackupState) :
    ((get_all_backups st).map (fun e => e.2.1)).Pairwise (fun a b => a.data ≤ b.data) ∧
    (∀ e ∈ get_all_backups st, e.1 = dateOf e.2.1) ∧
    (get_backup_dates st).Nodup ∧
    (get_backup_dates st).Sorted dateDesc := by
  refine ⟨?_, ?_, ?_, ?_⟩
  · unfold get_all_backups
    rw [List.map_map]
    have hs : (List.insertionSort fileLe
        (st.files.filter (fun f => globMatch "*-savegames*.zip".data f.1.data))).Pairwise
          fileLe :=
      List.sorted_insertionSort fileLe _
    exact hs.map _ (fun a b hab => hab)
  · intro e he
    unfold get_all_backups at he
    rcases List.mem_map.mp he with ⟨f, _, rfl⟩
    rfl
  · unfold get_backup_dates
    exact (List.perm_insertionSort dateDesc _).nodup_iff.mpr (List.nodup_dedup _)
  · exact List.sorted_insertionSort dateDesc _

theorem goodName_goodDate (n : String) (h : GoodName n) : GoodDate (dateOf n) :=
  ⟨(goodName_shape n h).2.1, (goodName_shape n h).2.2⟩

/-- With real deletion and always-successful unlinks, one pruning step
reports the name and drops the file. -/
theorem pruneStep_eq (acc2 : List String × BackupState) (name : String) :
    pruneStep false (fun _ => true) acc2 name
      = (acc2.1 ++ [name], removeFile acc2.2 name) := rfl

/-- The inner pruning loop over a fixed list of names reports exactly
those names and filters them out of the folder. -/
theorem pruneInner_spec (L : List String) :
    ∀ (acc : List String) (st : BackupState),
      L.foldl (pruneStep false (fun _ => true)) (acc, st)
        = (acc ++ L, ⟨st.files.filter (fun f => decide (f.1 ∉ L))⟩) := by
  induction L with
  | nil =>
      intro acc st
      simp only [List.foldl_nil, List.append_nil]
      have hfe : st.files.filter (fun f => decide (f.1 ∉ ([] : List String))) = st.files := by
        rw [List.filter_eq_self]
        intro f _
        simp
      rw [hfe]
  | cons n L ih =>
      intro acc st
      rw [List.foldl_cons, pruneStep_eq, ih]
      refine Prod.ext ?_ ?_
      · simp
      · show (⟨((removeFile (acc, st).2 n).files.filter (fun f => decide (f.1 ∉ L)))⟩ :
            BackupState) = ⟨st.files.filter (fun f => decide (f.1 ∉ n :: L))⟩
        unfold removeFile
        rw [List.filter_filter]
        congr 1
        apply List.filter_congr
        intro f _
        by_cases h1 : f.1 = n <;> by_cases h2 : f.1 ∈ L <;>
          simp [h1, h2]

/-- On a folder of well-formed names, `_find_backups_for_date` holds, up
to ordering, exactly the names whose date component is the given date. -/
theorem find_backups_perm (st : BackupState) (hgood : ∀ f ∈ st.files, GoodName f.1)
    (ds : String) (hds : GoodDate ds) :
    List.Perm (find_backups_for_date st ds)
      ((st.files.map (·.1)).filter (fun n => decide (dateOf n = ds))) := by
  unfold find_backups_for_date
  refine (List.perm_insertionSort _ _).trans ?_
  rw [List.filter_congr ?_]
  intro n hn
  rcases List.mem_map.mp hn with ⟨f, hf, rfl⟩
  have hgn : GoodName f.1 := hgood f hf
  rw [Bool.eq_iff_iff, decide_eq_true_eq, datePat_data,
    goodName_datePat_iff f.1 hgn ds.data hds.1 hds.2]
  exact ⟨fun h => String.ext h, fun h => by rw [h]⟩

/-- On a folder of well-formed names, the backup dates are exactly the
date components of the files. -/
theorem mem_get_backup_dates (st : BackupState) (hgood : ∀ f ∈ st.files, GoodName f.1)
    (d : String) :
    d ∈ get_backup_dates st ↔ ∃ f ∈ st.files, dateOf f.1 = d := by
  unfold get_backup_dates get_all_backups
  rw [List.mem_insertionSort, List.mem_dedup]
  have hfe : st.files.filter (fun f => globMatch "*-savegames*.zip".data f.1.data)
      = st.files := by
    rw [List.filter_eq_self]
    intro f hf
    exact goodName_matches_allPat f.1 (hgood f hf)
  rw [hfe, List.map_map, List.mem_map]
  constructor
  · rintro ⟨f, hf, rfl⟩
    exact ⟨f, (List.mem_insertionSort _).mp hf, rfl⟩
  · rintro ⟨f, hf, rfl⟩
    exact ⟨f, (List.mem_insertionSort _).mpr hf, rfl⟩

/-- The backup-date list is duplicate free. -/
theorem nodup_get_backup_dates (st : BackupState) : (get_backup_dates st).Nodup := by
  unfold get_backup_dates
  exact (List.perm_insertionSort dateDesc _).nodup_iff.mpr (List.nodup_dedup _)

/-- The outer pruning fold over a list of dates `D`, started on the
sub-folder of `st0` whose dates avoid `S`: it deletes exactly the files
whose date is in `D` (and not in `S`), reporting exactly their names. -/
theorem pruneOuter_spec (st0 : BackupState) (hgood : ∀ f ∈ st0.files, GoodName f.1)
    (D : List String) :
    ∀ (S : List String) (acc : List String), (∀ d ∈ D, GoodDate d) →
      (D.foldl (pruneDate false (fun _ => true))
          (acc, ⟨st0.files.filter (fun f => decide (dateOf f.1 ∉ S))⟩)).2
        = ⟨st0.files.filter (fun f => decide (dateOf f.1 ∉ S ++ D))⟩ ∧
      ∀ n, n ∈ (D.foldl (pruneDate false (fun _ => true))
          (acc, ⟨st0.files.filter (fun f => decide (dateOf f.1 ∉ S))⟩)).1
        ↔ n ∈ acc ∨ ∃ f ∈ st0.files, f.1 = n ∧ dateOf n ∉ S ∧ dateOf n ∈ D := by
  induction D with
  | nil =>
      intro S acc _
      constructor
      · simp only [List.foldl_nil, List.append_nil]
      · intro n
        simp
  | cons d D ih =>
      intro S acc hD
      have hd : GoodDate d := hD d (List.mem_cons_self d D)
      have hD' : ∀ d' ∈ D, GoodDate d' := fun d' hd' => hD d' (List.mem_cons_of_mem _ hd')
      set stS : BackupState := ⟨st0.files.filter (fun f => decide (dateOf f.1 ∉ S))⟩
        with hstS
      have hgoodS : ∀ f ∈ stS.files, GoodName f.1 := by
        intro f hf
        exact hgood f (List.mem_filter.mp hf).1
      set L := find_backups_for_date stS d with hL
      have hLperm := find_backups_perm stS hgoodS d hd
      have hLmem : ∀ n, n ∈ L ↔
          ∃ f ∈ st0.files, f.1 = n ∧ dateOf n ∉ S ∧ dateOf n = d := by
        intro n
        rw [hL, hLperm.mem_iff, List.mem_filter]
        constructor
        · rintro ⟨hnm, hnd⟩
          rcases List.mem_map.mp hnm with ⟨f, hf, rfl⟩
          rcases List.mem_filter.mp hf with ⟨hf0, hfS⟩
          exact ⟨f, hf0, rfl, by simpa using hfS, by simpa using hnd⟩
        · rintro ⟨f, hf0, rfl, hnS, hnd⟩
          refine ⟨List.mem_map.mpr ⟨f, List.mem_filter.mpr ⟨hf0, by simpa using hnS⟩, rfl⟩,
            by simpa using hnd⟩
      have hstep : pruneDate false (fun _ => true) (acc, stS) d
          = (acc ++ L, ⟨st0.files.filter (fun f => decide (dateOf f.1 ∉ S ++ [d]))⟩) := by
        unfold pruneDate
        rw [← hL, pruneInner_spec]
        refine Prod.ext rfl ?_
        show (⟨stS.files.filter (fun f => decide (f.1 ∉ L))⟩ : BackupState) = _
        rw [hstS]
        show (⟨(st0.files.filter _).filter _⟩ : BackupState) = _
        rw [List.filter_filter]
        congr 1
        apply List.filter_congr
        intro f hf0
        have hfL := hLmem f.1
        by_cases hS : dateOf f.1 ∈ S
        · simp [hS]
        · by_cases hdd : dateOf f.1 = d
          · have : f.1 ∈ L := (hLmem f.1).mpr ⟨f, hf0, rfl, hS, hdd⟩
            simp [hS, hdd, this]
          · have : f.1 ∉ L := by
              intro hmem
              rcases (hLmem f.1).mp hmem with ⟨g, _, hg, _, hgd⟩
              exact hdd hgd
            simp [hS, hdd, this]
      rw [List.foldl_cons, hstep]
      rcases ih (S ++ [d]) (acc ++ L) hD' with ⟨ih1, ih2⟩
      constructor
      · rw [ih1]
        have hls : (S ++ [d]) ++ D = S ++ d :: D := by simp
        rw [hls]
      · intro n
        rw [ih2 n]
        rw [List.mem_append, hLmem n]
        constructor
        · rintro ((hacc | ⟨f, hf0, rfl, hnS, hnd⟩) | ⟨f, hf0, rfl, hnSd, hnD⟩)
          · exact Or.inl hacc
          · exact Or.inr ⟨f, hf0, rfl, hnS, hnd ▸ List.mem_cons_self d D⟩
          · have hnS : dateOf f.1 ∉ S := fun hc => hnSd (List.mem_append_left _ hc)
            exact Or.inr ⟨f, hf0, rfl, hnS, List.mem_cons_of_mem _ hnD⟩
        · rintro (hacc | ⟨f, hf0, rfl, hnS, hnd⟩)
          · exact Or.inl (Or.inl hacc)
          · rcases List.mem_cons.mp hnd with heq | hmem
            · exact Or.inl (Or.inr ⟨f, hf0, rfl, hnS, heq⟩)
            · by_cases hdd : dateOf f.1 = d
              · exact Or.inl (Or.inr ⟨f, hf0, rfl, hnS, hdd⟩)
              · have hnSd : dateOf f.1 ∉ S ++ [d] := by
                  intro hc
                  rcases List.mem_append.mp hc with hh | hh
                  · exact hnS hh
                  · simp at hh
                    exact hdd hh
                exact Or.inr ⟨f, hf0, rfl, hnSd, hmem⟩

theorem nodup_subset_length {α : Type} [DecidableEq α] (l l' : List α)
    (h : l.Nodup) (hs : l ⊆ l') : l.length ≤ l'.length := by
  have h1 : l.toFinset.card = l.length := List.toFinset_card_of_nodup h
  have h2 : l.toFinset ⊆ l'.toFinset := by
    intro a ha
    rw [List.mem_toFinset] at ha ⊢
    exact hs ha
  calc l.length = l.toFinset.card := h1.symm
    _ ≤ l'.toFinset.card := Finset.card_le_card h2
    _ ≤ l'.length := l'.toFinset_card_le

/-- C4: on a backup root of well-formed archive names with `N` unique
backup dates, if `N ≤ keep_days` then `prune_old_backups` deletes nothing
and returns the empty list; if `keep_days = k < N` (with deletion enabled
and all unlinks succeeding) it removes exactly the archives of the
`N - k` oldest dates (the tail of the descending date list), retains all
archives of the `k` most recent dates, returns exactly the names of the
archives it removed, and an immediate re-run with the same `k` returns
the empty list and changes nothing. -/
theorem C4_prune_retention (st : BackupState) (k : Nat)
    (hgood : ∀ f ∈ st.files, GoodName f.1) :
    ((get_backup_dates st).length ≤ k →
      prune_old_backups st k false (fun _ => true) = ([], st)) ∧
    (k < (get_backup_dates st).length →
      (∀ f ∈ st.files, dateOf f.1 ∈ (get_backup_dates st).drop k →
          f.1 ∈ (prune_old_backups st k false (fun _ => true)).1 ∧
          f ∉ (prune_old_backups st k false (fun _ => true)).2.files) ∧
      (∀ f ∈ st.files, dateOf f.1 ∈ (get_backup_dates st).take k →
          f.1 ∉ (prune_old_backups st k false (fun _ => true)).1 ∧
          f ∈ (prune_old_backups st k false (fun _ => true)).2.files) ∧
      (∀ n ∈ (prune_old_backups st k false (fun _ => true)).1,
          ∃ f ∈ st.files, f.1 = n ∧ dateOf f.1 ∈ (get_backup_dates st).drop k) ∧
      prune_old_backups (prune_old_backups st k false (fun _ => true)).2 k false
          (fun _ => true)
        = ([], (prune_old_backups st k false (fun _ => true)).2)) := by
  constructor
  · intro hle
    unfold prune_old_backups
    rw [if_pos hle]
  · intro hk
    have hnle : ¬ (get_backup_dates st).length ≤ k := not_le.mpr hk
    have hDgood : ∀ d ∈ (get_backup_dates st).drop k, GoodDate d := by
      intro d hd
      have hdm : d ∈ get_backup_dates st := List.mem_of_mem_drop hd
      rcases (mem_get_backup_dates st hgood d).mp hdm with ⟨f, hf, hdf⟩
      exact hdf ▸ goodName_goodDate f.1 (hgood f hf)
    have hid : (⟨st.files.filter (fun f => decide (dateOf f.1 ∉ ([] : List String)))⟩ :
        BackupState) = st := by
      have hfe : st.files.filter (fun f => decide (dateOf f.1 ∉ ([] : List String)))
          = st.files := by
        rw [List.filter_eq_self]
        intro f _
        simp
      rw [hfe]
    obtain ⟨h1, h2⟩ := pruneOuter_spec st hgood ((get_backup_dates st).drop k) [] [] hDgood
    rw [hid] at h1 h2
    have hres : prune_old_backups st k false (fun _ => true)
        = ((get_backup_dates st).drop k).foldl (pruneDate false (fun _ => true)) ([], st) := by
      unfold prune_old_backups
      rw [if_neg hnle]
    have hnil : (([] : List String)) ++ (get_backup_dates st).drop k
        = (get_backup_dates st).drop k := by simp
    rw [hnil] at h1
    have hdisj : ∀ x, x ∈ (get_backup_dates st).take k →
        x ∈ (get_backup_dates st).drop k → False := by
      have hnd : ((get_backup_dates st).take k ++ (get_backup_dates st).drop k).Nodup := by
        rw [List.take_append_drop]
        exact nodup_get_backup_dates st
      have hsplit := List.nodup_append.mp hnd
      exact fun x hx1 hx2 => hsplit.2.2 hx1 hx2
    refine ⟨?_, ?_, ?_, ?_⟩
    · intro f hf hfd
      constructor
      · rw [hres]
        exact (h2 f.1).mpr (Or.inr ⟨f, hf, rfl, by simp, hfd⟩)
      · rw [hres, h1]
        intro hmem
        have hcond := (List.mem_filter.mp hmem).2
        simp only [decide_eq_true_eq] at hcond
        exact hcond hfd
    · intro f hf hft
      have hfd : dateOf f.1 ∉ (get_backup_dates st).drop k := fun hc => hdisj _ hft hc
      constructor
      · rw [hres]
        intro hmem
        rcases (h2 f.1).mp hmem with hacc | ⟨g, _, _, _, hgD⟩
        · simp at hacc
        · exact hfd hgD
      · rw [hres, h1]
        exact List.mem_filter.mpr ⟨hf, by simpa using hfd⟩
    · intro n hn
      rw [hres] at hn
      rcases (h2 n).mp hn with hacc | ⟨f, hf, hf1, _, hfD⟩
      · simp at hacc
      · exact ⟨f, hf, hf1, hf1 ▸ hfD⟩
    · have hfiles : (prune_old_backups st k false (fun _ => true)).2.files
          = st.files.filter
              (fun f => decide (dateOf f.1 ∉ (get_backup_dates st).drop k)) := by
        rw [hres, h1]
      have hgood2 : ∀ f ∈ (prune_old_backups st k false (fun _ => true)).2.files,
          GoodName f.1 := by
        intro f hf
        rw [hfiles] at hf
        exact hgood f (List.mem_filter.mp hf).1
      have hsub : get_backup_dates (prune_old_backups st k false (fun _ => true)).2
          ⊆ (get_backup_dates st).take k := by
        intro d hd
        rcases (mem_get_backup_dates _ hgood2 d).mp hd with ⟨f, hf, hdf⟩
        rw [hfiles] at hf
        rcases List.mem_filter.mp hf with ⟨hf0, hfD⟩
        have hdm : d ∈ get_backup_dates st :=
          (mem_get_backup_dates st hgood d).mpr ⟨f, hf0, hdf⟩
        have hdm' : d ∈ (get_backup_dates st).take k ++ (get_backup_dates st).drop k := by
          rw [List.take_append_drop]
          exact hdm
        rcases List.mem_append.mp hdm' with hh | hh
        · exact hh
        · exfalso
          rw [← hdf] at hh
          simp only [decide_eq_true_eq] at hfD
          exact hfD hh
      have hlen : (get_backup_dates (prune_old_backups st k false (fun _ => true)).2).length
          ≤ k := by
        have ha := nodup_subset_length _ _
          (nodup_get_backup_dates (prune_old_backups st k false (fun _ => true)).2) hsub
        have hb : ((get_backup_dates st).take k).length = k := by
          rw [List.length_take]
          omega
        omega
      have hprune_le : ∀ (Y : BackupState), (get_backup_dates Y).length ≤ k →
          prune_old_backups Y k false (fun _ => true) = ([], Y) := by
        intro Y hle
        unfold prune_old_backups
        rw [if_pos hle]
      exact hprune_le _ hlen

/-- Witness for C4: five dates, `keep_days = 3`. -/
theorem C4_prune_retention_witness :
    (∀ f ∈ stC4.files, dateOf f.1 ∈ (get_backup_dates stC4).drop 3 →
        f.1 ∈ (prune_old_backups stC4 3 false (fun _ => true)).1 ∧
        f ∉ (prune_old_backups stC4 3 false (fun _ => true)).2.files) ∧
    (∀ f ∈ stC4.files, dateOf f.1 ∈ (get_backup_dates stC4).take 3 →
        f.1 ∉ (prune_old_backups stC4 3 false (fun _ => true)).1 ∧
        f ∈ (prune_old_backups stC4 3 false (fun _ => true)).2.files) ∧
    (∀ n ∈ (prune_old_backups stC4 3 false (fun _ => true)).1,
        ∃ f ∈ stC4.files, f.1 = n ∧ dateOf f.1 ∈ (get_backup_dates stC4).drop 3) ∧
    prune_old_backups (prune_old_backups stC4 3 false (fun _ => true)).2 3 false
        (fun _ => true)
      = ([], (prune_old_backups stC4 3 false (fun _ => true)).2) :=
  (C4_prune_retention stC4 3
    (by
      intro f hf
      simp only [stC4, List.mem_cons, List.not_mem_nil, or_false] at hf
      rcases hf with rfl | rfl | rfl | rfl | rfl
      · exact ⟨"20240101".data, "1".data, [], by decide, by decide, by decide⟩
      · exact ⟨"20240102".data, "1".data, [], by decide, by decide, by decide⟩
      · exact ⟨"20240103".data, "1".data, [], by decide, by decide, by decide⟩
      · exact ⟨"20240104".data, "1".data, [], by decide, by decide, by decide⟩
      · exact ⟨"20240105".data, "1".data, [], by decide, by decide, by decide⟩)).2
    (by decide)

/-- Counterexample to C7 as stated: a non-numeric id under a character
attribute element makes the whole scan fail (the uncaught `ValueError`
of `_scan_characters` propagates out of `scan_file`), rather than being
silently skipped. -/
theorem C7_counterexample :
    pyInt "abc" = none ∧
    scan_file refNone "save" "now" (charTreeNonNum "abc") = none := by
  exact ⟨by decide, by decide⟩

/-- C7 (amended): a non-numeric attribute value under an identifier-
bearing key is silently skipped — not counted, producing no unknown item
and no error — in the storage pass and the generic catch-all pass only;
in the character (attribute/skill/trait/condition), research and craft
passes it raises an uncaught error that aborts the scan. -/
theorem C7_non_numeric_handling (ref : ReferenceData) (r : ScanResult) (s : String)
    (h : pyInt s = none) :
    scan_storage ref (storageTreeNonNum s) r = r ∧
    scan_generic_ids ref (genericTreeNonNum s) r = r ∧
    scan_characters ref (charTreeNonNum s) r = none ∧
    scan_research ref (researchTreeNonNum s) r = none ∧
    scan_crafts ref (craftTreeNonNum s) r = none := by
  refine ⟨?_, ?_, ?_, ?_, ?_⟩
  · simp [scan_storage, storageTreeNonNum, findallDesc, XmlNode.descendants,
      XmlNode.descendants.go, XmlNode.get, XmlNode.attrib, XmlNode.tag, List.find?, h]
  · simp [scan_generic_ids, genericTreeNonNum, iterAll, id_attributes, coveredTags,
      XmlNode.descendants, XmlNode.descendants.go, XmlNode.get, XmlNode.attrib,
      XmlNode.tag, List.find?, h]
  · simp [scan_characters, charTreeNonNum, findallDesc, findChild, findallChild, scanBlock,
      checkIdElem, XmlNode.descendants, XmlNode.descendants.go, XmlNode.get,
      XmlNode.attrib, XmlNode.tag, XmlNode.children, List.find?, h]
  · simp [scan_research, researchTreeNonNum, findallDesc, XmlNode.descendants,
      XmlNode.descendants.go, XmlNode.get, XmlNode.attrib, XmlNode.tag, List.find?, h]
  · simp [scan_crafts, craftTreeNonNum, findallDesc, XmlNode.descendants,
      XmlNode.descendants.go, XmlNode.get, XmlNode.attrib, XmlNode.tag, List.find?, h]

/-- Witness for the amended C7 at the non-numeric value `"abc"`. -/
theorem C7_non_numeric_handling_witness :
    scan_storage refNone (storageTreeNonNum "abc") (initResult "save" "now")
        = initResult "save" "now" ∧
    scan_generic_ids refNone (genericTreeNonNum "abc") (initResult "save" "now")
        = initResult "save" "now" ∧
    scan_characters refNone (charTreeNonNum "abc") (initResult "save" "now") = none ∧
    scan_research refNone (researchTreeNonNum "abc") (initResult "save" "now") = none ∧
    scan_crafts refNone (craftTreeNonNum "abc") (initResult "save" "now") = none :=
  C7_non_numeric_handling refNone (initResult "save" "now") "abc" (by decide)

theorem classifyId_total (ref : ReferenceData) (c t p g : String)
    (a : List (String × String)) (v : Int) (r : ScanResult) :
    (classifyId ref c t p g a v r).total_ids_found = r.total_ids_found + 1 := by
  unfold classifyId
  split
  · rfl
  · exact (add_unknown_item_counts _ _).1

theorem classifyId_mem_new (ref : ReferenceData) (c t p g : String)
    (a : List (String × String)) (v : Int) (r : ScanResult)
    (h : ref.is_known_id v c = false) :
    ∃ u ∈ (classifyId ref c t p g a v r).unknown_items,
      u.id_value = v ∧ u.id_type = t := by
  unfold classifyId
  rw [if_neg (by rw [h]; decide)]
  rcases add_unknown_item_mem_key { r with total_ids_found := r.total_ids_found + 1 }
      { id_value := v, id_type := t, xml_path := p, xml_tag := g,
        xml_attributes := a, occurrences := 1 } with ⟨u, hu, hku⟩
  exact ⟨u, hu, congrArg Prod.fst hku, congrArg Prod.snd hku⟩

theorem classifyId_mem_mono (ref : ReferenceData) (c t p g : String)
    (a : List (String × String)) (v : Int) (r : ScanResult) (v0 : Int) (t0 : String)
    (h : ∃ u ∈ r.unknown_items, u.id_value = v0 ∧ u.id_type = t0) :
    ∃ u ∈ (classifyId ref c t p g a v r).unknown_items,
      u.id_value = v0 ∧ u.id_type = t0 := by
  unfold classifyId
  split
  · exact h
  · rcases h with ⟨u, hu, hv, ht⟩
    rcases add_unknown_item_mem_key_mono { r with total_ids_found := r.total_ids_found + 1 }
        _ (v0, t0) ⟨u, hu, by rw [ukey, hv, ht]⟩ with ⟨u', hu', hku'⟩
    exact ⟨u', hu', congrArg Prod.fst hku', congrArg Prod.snd hku'⟩

/-- C10: in the targeted character passes, an attribute, skill, trait or
condition element without an `id` attribute is not skipped: it is read as
identifier 0 (the `int(elem.get("id", "0"))` default), counted in
`total_ids_found`, and classified against the catalog, yielding (or
incrementing) an unknown item with `id_value` 0 for each category in
which 0 is not a known identifier. -/
theorem C10_missing_id_defaults_to_zero (ref : ReferenceData) (r : ScanResult)
    (h1 : ref.is_known_id 0 "attributes" = false)
    (h2 : ref.is_known_id 0 "skills" = false)
    (h3 : ref.is_known_id 0 "traits" = false)
    (h4 : ref.is_known_id 0 "conditions" = false) :
    ∃ r', scan_characters ref missingIdTree r = some r' ∧
      r'.total_ids_found = r.total_ids_found + 4 ∧
      (∃ u ∈ r'.unknown_items, u.id_value = 0 ∧ u.id_type = "attribute") ∧
      (∃ u ∈ r'.unknown_items, u.id_value = 0 ∧ u.id_type = "skill") ∧
      (∃ u ∈ r'.unknown_items, u.id_value = 0 ∧ u.id_type = "trait") ∧
      (∃ u ∈ r'.unknown_items, u.id_value = 0 ∧ u.id_type = "condition") := by
  have hbase : ("//c[@entId=" ++ sqChar ++ "1" ++ sqChar ++ "]/pers/" : String)
      = "//c[@entId=" ++ sqChar ++ "1" ++ sqChar ++ "]/pers/" := rfl
  refine ⟨classifyId ref "conditions" "condition"
      ("//c[@entId=" ++ sqChar ++ "1" ++ sqChar ++ "]/pers/" ++ "conditions/c") "c" [] 0
      (classifyId ref "traits" "trait"
        ("//c[@entId=" ++ sqChar ++ "1" ++ sqChar ++ "]/pers/" ++ "traits/t") "t" [] 0
        (classifyId ref "skills" "skill"
          ("//c[@entId=" ++ sqChar ++ "1" ++ sqChar ++ "]/pers/" ++ "skills/s") "s" [] 0
          (classifyId ref "attributes" "attribute"
            ("//c[@entId=" ++ sqChar ++ "1" ++ sqChar ++ "]/pers/" ++ "attr/a") "a" [] 0
            r))), rfl, ?_, ?_, ?_, ?_, ?_⟩
  · rw [classifyId_total, classifyId_total, classifyId_total, classifyId_total]
  · exact classifyId_mem_mono _ _ _ _ _ _ _ _ _ _
      (classifyId_mem_mono _ _ _ _ _ _ _ _ _ _
        (classifyId_mem_mono _ _ _ _ _ _ _ _ _ _
          (classifyId_mem_new _ _ _ _ _ _ _ _ h1)))
  · exact classifyId_mem_mono _ _ _ _ _ _ _ _ _ _
      (classifyId_mem_mono _ _ _ _ _ _ _ _ _ _
        (classifyId_mem_new _ _ _ _ _ _ _ _ h2))
  · exact classifyId_mem_mono _ _ _ _ _ _ _ _ _ _
      (classifyId_mem_new _ _ _ _ _ _ _ _ h3)
  · exact classifyId_mem_new _ _ _ _ _ _ _ _ h4

/-- Witness for C10 with the empty catalog. -/
theorem C10_missing_id_defaults_to_zero_witness :
    ∃ r', scan_characters refNone missingIdTree (initResult "save" "now") = some r' ∧
      r'.total_ids_found = (initResult "save" "now").total_ids_found + 4 ∧
      (∃ u ∈ r'.unknown_items, u.id_value = 0 ∧ u.id_type = "attribute") ∧
      (∃ u ∈ r'.unknown_items, u.id_value = 0 ∧ u.id_type = "skill") ∧
      (∃ u ∈ r'.unknown_items, u.id_value = 0 ∧ u.id_type = "trait") ∧
      (∃ u ∈ r'.unknown_items, u.id_value = 0 ∧ u.id_type = "condition") :=
  C10_missing_id_defaults_to_zero refNone (initResult "save" "now") rfl rfl rfl rfl

/-- C8 fails on the code: `_compare_structures` is called once at the
root and never recurses, so a tag missing among a non-root node's
children is reported nowhere. Here the node path `root/a` is present in
both depth-bounded summaries, its child-tag sets differ (`{b}` versus
`{}` — the comparison at that node, which the claim requires, would
report the missing `<b>` at `root/a`), yet the structural-difference
list of the comparison is empty. -/
theorem C8_grandchild_diff_not_reported :
    structuralDiffs c8Base c8Other = [] ∧
    (analyzeNode 3 (.elem "a" [] [.elem "b" [] []])).childCounts
        ≠ (analyzeNode 3 (.elem "a" [] [])).childCounts ∧
    compare_structures (analyzeNode 3 (.elem "a" [] [.elem "b" [] []]))
        (analyzeNode 3 (.elem "a" [] [])) "root/a"
      = ["Missing element at root/a: <b> (present in baseline)"] := by
  refine ⟨by decide, by decide, by decide⟩
